import Mathlib

/- Verification development for src/bkit/milestoning.py.

   Cell labels are integers, with `none` standing for the Python `None`
   sentinel used for the region beyond the cutoff; a label is therefore
   `Option Int`.  Milestones are Python frozensets of cell labels, embedded
   as `Finset (Option Int)`.  Numeric times (the sampling interval dt and
   the accumulated lifetimes) are rationals, covering the Python ints and
   floats that occur.  Fallible Python code is embedded as `Except String`,
   the string holding the exception. -/

abbrev Cell := Option ℤ

abbrev Milestone := Finset Cell

abbrev Schedule := List (Milestone × ℚ)

/-- The loop of dtraj_to_milestone_schedule, milestoning.py lines 258-265:
`milestones = [frozenset((None, dtraj[0]))]; lifetimes = [0]` followed by
`for i, j in zip(dtraj[:-1], dtraj[1:])`, which adds dt to the last
lifetime and, when `j` is not a member of the last milestone, appends the
milestone `frozenset((i, j))` with lifetime 0.  Arguments: the current
(last) milestone, its accumulated lifetime, the previous sample `i`, and
the remaining samples. -/
def milestoneLoop (dt : ℚ) : Milestone → ℚ → Cell → List Cell → Schedule
  | cur, t, _, [] => [(cur, t)]
  | cur, t, i, j :: rest =>
    if j ∈ cur then milestoneLoop dt cur (t + dt) j rest
    else (cur, t + dt) :: milestoneLoop dt {i, j} 0 j rest

/-- dtraj_to_milestone_schedule exactly as written, milestoning.py lines
232-268.  The first statement of the body, line 256, reads the name
forward_milestoning, which is defined nowhere in the module (the parameter
is named forward), so every call raises NameError before any argument is
inspected. -/
def dtraj_to_milestone_schedule ( _dtraj : List Cell) ( _dt : ℚ) ( _forward : Bool) :
    Except String Schedule :=
  Except.error "NameError: name forward_milestoning is not defined"

/-- Lines 256-268 with the undefined name forward_milestoning read as the
parameter forward, the evident intent.  Even then the forward branch binds
dtraj to reversed(dtraj) at line 257, a list_reverseiterator, and line 258
subscripts it, raising TypeError; and an empty dtraj raises IndexError at
line 258 (dtraj[0]).  The backward branch is lines 258-265, embedded by
milestoneLoop. -/
def dtraj_to_milestone_schedule_fixed (dtraj : List Cell) (dt : ℚ) (forward : Bool) :
    Except String Schedule :=
  if forward then
    Except.error "TypeError: the reversed iterator cannot be subscripted"
  else
    match dtraj with
    | [] => Except.error "IndexError: list index out of range"
    | d0 :: rest => Except.ok (milestoneLoop dt {none, d0} 0 d0 rest)

/-- Modelled from the spec: the intended forward commitment.  The docstring
(milestoning.py lines 250-252) and spec section 4.4 say forward milestoning
runs the backward reduction over the trajectory reversed in time and then
reverses the resulting schedule; the backward reduction itself is the code
at lines 258-265 (milestoneLoop).  The executable forward branch is absent
from the source (it raises), so it is modelled from these words. -/
def dtraj_to_milestone_schedule_spec (dtraj : List Cell) (dt : ℚ) (forward : Bool) :
    Except String Schedule :=
  if forward then
    (dtraj_to_milestone_schedule_fixed dtraj.reverse dt false).map List.reverse
  else
    dtraj_to_milestone_schedule_fixed dtraj dt false

/-- C1, counterexample.  On [0,0,1,1,2,2,1,1,0] with dt = 1 and
forward = false, dtraj_to_milestone_schedule does not return the claimed
schedule: as written it raises NameError, and even with the undefined name
read as the parameter forward it returns a schedule different from the
claimed one. -/
theorem dtraj_claimed_schedule_counterexample :
    dtraj_to_milestone_schedule
        [some 0, some 0, some 1, some 1, some 2, some 2, some 1, some 1, some 0] 1 false
      = Except.error "NameError: name forward_milestoning is not defined"
  ∧ dtraj_to_milestone_schedule_fixed
        [some 0, some 0, some 1, some 1, some 2, some 2, some 1, some 1, some 0] 1 false
      ≠ Except.ok [({none, some 0}, 2), ({some 0, some 1}, 2), ({some 1, some 2}, 2),
                   ({some 2, some 1}, 2), ({some 1, some 0}, 1)] := by
  refine ⟨rfl, ?_⟩
  simp [dtraj_to_milestone_schedule_fixed, milestoneLoop,
        Finset.mem_insert, Finset.mem_singleton]

/-- C1, amended.  With the undefined name forward_milestoning read as the
parameter forward, the backward run on [0,0,1,1,2,2,1,1,0] with dt = 1
returns [({None,0},2), ({0,1},2), ({1,2},4), ({1,0},0)]: the step from
cell 2 back to cell 1 does not open a milestone {2,1}, because label 1
already belongs to the current milestone {1,2}, so that transit is
absorbed into the lifetime of {1,2} per the crossing rule at line 262. -/
theorem dtraj_sample_backward_schedule :
    dtraj_to_milestone_schedule_fixed
        [some 0, some 0, some 1, some 1, some 2, some 2, some 1, some 1, some 0] 1 false
      = Except.ok [({none, some 0}, 2), ({some 0, some 1}, 2), ({some 1, some 2}, 4),
                   ({some 1, some 0}, 0)] := by
  simp [dtraj_to_milestone_schedule_fixed, milestoneLoop,
        Finset.mem_insert, Finset.mem_singleton]
  norm_num

/-- C2.  The code cannot perform forward milestoning at all: every call of
dtraj_to_milestone_schedule raises NameError (undefined name
forward_milestoning), shown here at dtraj = [0, 1], dt = 1, forward = true.
The intended behaviour, modelled from the docstring and spec section 4.4 by
dtraj_to_milestone_schedule_spec, is by construction the reversal of the
backward schedule of the reversed trajectory, and on [0, 1] it yields
[({0,1}, 0), ({1, None}, 1)], whose final entry carries the open sentinel
pair of the last label. -/
theorem forward_commitment_divergence :
    dtraj_to_milestone_schedule [some 0, some 1] 1 true
      = Except.error "NameError: name forward_milestoning is not defined"
  ∧ (∀ (l : List Cell) (dt : ℚ),
      dtraj_to_milestone_schedule_spec l dt true
        = (dtraj_to_milestone_schedule_fixed l.reverse dt false).map List.reverse)
  ∧ dtraj_to_milestone_schedule_spec [some 0, some 1] 1 true
      = Except.ok [({some 0, some 1}, 0), ({none, some 1}, 1)] := by
  refine ⟨rfl, fun l dt => rfl, ?_⟩
  simp [dtraj_to_milestone_schedule_spec, dtraj_to_milestone_schedule_fixed, milestoneLoop,
        Except.map, Finset.mem_insert, Finset.mem_singleton]
  norm_num [Finset.pair_comm]

/-- C8.  A single-element trajectory: the code as written still raises
NameError (undefined name forward_milestoning), shown here at [5], dt = 1,
forward = false; the intended reduction, modelled from the docstring and
spec section 4.4, returns for every label c, every dt and either commitment
direction the single-entry schedule [({sentinel, c}, 0)]. -/
theorem single_element_schedule_divergence :
    dtraj_to_milestone_schedule [some 5] 1 false
      = Except.error "NameError: name forward_milestoning is not defined"
  ∧ (∀ (c : ℤ) (dt : ℚ) (fwd : Bool),
      dtraj_to_milestone_schedule_spec [some c] dt fwd
        = Except.ok [({none, some c}, 0)]) := by
  refine ⟨rfl, fun c dt fwd => ?_⟩
  cases fwd <;>
    simp [dtraj_to_milestone_schedule_spec, dtraj_to_milestone_schedule_fixed, milestoneLoop,
          Except.map]

/- Cell graph and TrajectoryDecomposer state.  The graph of cells is the
   networkx Graph held in self._graph: a finite node set and a finite set
   of undirected edges, an edge being embedded as the normalised pair
   (min, max).  self._parent_cell is a dict from anchor index to cell
   label, embedded as an association list in key order;
   self._kdtree.data is the (N, 1) anchor array of the one-dimensional
   case, embedded as the list of coordinates. -/

def mkEdge (u v : ℕ) : ℕ × ℕ := (u ⊓ v, u ⊔ v)

/-- Node relabelling performed by nx.contracted_nodes: j becomes i. -/
def relabel (i j x : ℕ) : ℕ := if x = j then i else x

structure CellGraph where
  nodes : Finset ℕ
  edges : Finset (ℕ × ℕ)

/-- nx.contracted_nodes(G, i, j, self_loops=False), milestoning.py line
186: node j is removed, every edge end equal to j is re-attached to i,
parallel edges collapse (the edge set is a set), and self-loops are
dropped. -/
def contracted_nodes (G : CellGraph) (i j : ℕ) : CellGraph :=
  { nodes := G.nodes.erase j,
    edges := (G.edges.image (fun e => mkEdge (relabel i j e.1) (relabel i j e.2))).filter
      (fun e => e.1 ≠ e.2) }

structure TrajectoryDecomposer where
  graph : CellGraph
  parent_cell : List (ℕ × ℕ)
  data : List ℚ
  cutoff : Option ℚ

/-- cell_anchor_mapping, milestoning.py lines 161-167, at one cell c: the
Python property starts from an empty list per graph node and, iterating
the anchor-to-cell dict in key order, extends the list of cell
parent_cell[k] with the coordinates of anchor k (mapping[i] +=
self._kdtree.data[k]); the list obtained for cell c collects, in key
order, the coordinate of every anchor whose parent cell is c. -/
def cell_anchor_mapping (D : TrajectoryDecomposer) (c : ℕ) : List ℚ :=
  (D.parent_cell.filter (fun p => p.2 = c)).map (fun p => D.data.getD p.1 0)

/-- remove_milestone, milestoning.py lines 174-189: raise ValueError when
the graph has no edge (i, j); otherwise contract node j into node i and
repoint every anchor of cell j to cell i. -/
def remove_milestone (D : TrajectoryDecomposer) (i j : ℕ) :
    Except String TrajectoryDecomposer :=
  if mkEdge i j ∉ D.graph.edges then
    Except.error "milestone does not exist; cannot remove it"
  else
    Except.ok { D with
      graph := contracted_nodes D.graph i j,
      parent_cell := D.parent_cell.map (fun p => if p.2 = j then (p.1, i) else p) }

theorem mkEdge_comm (u v : ℕ) : mkEdge u v = mkEdge v u := by
  simp [mkEdge, inf_comm, sup_comm]

theorem relabel_mkEdge (i j u v : ℕ) :
    mkEdge (relabel i j (mkEdge u v).1) (relabel i j (mkEdge u v).2)
      = mkEdge (relabel i j u) (relabel i j v) := by
  rcases le_total u v with h | h
  · simp [mkEdge, inf_eq_left.mpr h, sup_eq_right.mpr h]
  · rw [mkEdge_comm u v]
    simp only [mkEdge, inf_eq_left.mpr h, sup_eq_right.mpr h]
    exact mkEdge_comm _ _

theorem mkEdge_ne_diag (u v : ℕ) (h : u ≠ v) : (mkEdge u v).1 ≠ (mkEdge u v).2 := by
  rcases le_total u v with hle | hle
  · simpa [mkEdge, inf_eq_left.mpr hle, sup_eq_right.mpr hle] using h
  · simpa [mkEdge, inf_eq_right.mpr hle, sup_eq_left.mpr hle] using fun e => h e.symm

/-- C3.  Removing a milestone that does not exist: when the graph has no
edge between cells i and j, remove_milestone returns only the ValueError
raised at line 185; no successor state is produced, so the edge set and
the cell-to-anchor mapping of the decomposer are those it had before the
call (the mutations at lines 186-189 are never reached). -/
theorem remove_milestone_missing_edge (D : TrajectoryDecomposer) (i j : ℕ)
    (h : mkEdge i j ∉ D.graph.edges) :
    remove_milestone D i j = Except.error "milestone does not exist; cannot remove it" := by
  simp [remove_milestone, h]

def sampleDecomposer : TrajectoryDecomposer :=
  { graph := { nodes := {0, 1, 2}, edges := {mkEdge 0 1, mkEdge 1 2} },
    parent_cell := [(0, 0), (1, 1), (2, 2)],
    data := [0, 1, 2],
    cutoff := none }

/-- C3, witness: the chain graph 0 - 1 - 2 has no milestone between cells
0 and 2, so removing it fails. -/
theorem remove_milestone_missing_edge_witness :
    remove_milestone sampleDecomposer 0 2
      = Except.error "milestone does not exist; cannot remove it" :=
  remove_milestone_missing_edge sampleDecomposer 0 2 (by decide)

/-- C4.  Removing an existing milestone (i, j) merges cell j into cell i:
the call succeeds, and in the resulting state the anchor coordinates
mapped to cell i are exactly those formerly mapped to i together with
those formerly mapped to j, cell j is no longer a node of the graph, and
every milestone {j, k} with a third cell k reappears as {i, k} while an
already existing {i, k} also remains; the edge set being a set, the two
collapse to the single milestone {i, k} (no duplicate). -/
theorem remove_milestone_merges_cells (D : TrajectoryDecomposer) (i j : ℕ)
    (hne : i ≠ j) (h : mkEdge i j ∈ D.graph.edges) :
    ∃ D2, remove_milestone D i j = Except.ok D2
      ∧ (∀ x : ℚ, x ∈ cell_anchor_mapping D2 i ↔
            x ∈ cell_anchor_mapping D i ∨ x ∈ cell_anchor_mapping D j)
      ∧ j ∉ D2.graph.nodes
      ∧ (∀ k : ℕ, k ≠ i → k ≠ j →
            mkEdge j k ∈ D.graph.edges → mkEdge i k ∈ D2.graph.edges)
      ∧ (∀ k : ℕ, k ≠ i → k ≠ j →
            mkEdge i k ∈ D.graph.edges → mkEdge i k ∈ D2.graph.edges) := by
  have hok : remove_milestone D i j = Except.ok
      { D with graph := contracted_nodes D.graph i j,
               parent_cell := D.parent_cell.map (fun p => if p.2 = j then (p.1, i) else p) } := by
    simp [remove_milestone, h]
  refine ⟨_, hok, ?_, ?_, ?_, ?_⟩
  · intro x
    simp only [cell_anchor_mapping, List.mem_map, List.mem_filter, decide_eq_true_eq]
    constructor
    · rintro ⟨p, ⟨⟨q, hq, rfl⟩, hp2⟩, hx⟩
      by_cases hqj : q.2 = j
      · exact Or.inr ⟨q, ⟨hq, hqj⟩, by simpa [hqj] using hx⟩
      · refine Or.inl ⟨q, ⟨hq, ?_⟩, by simpa [hqj] using hx⟩
        simpa [hqj] using hp2
    · rintro (⟨p, ⟨hp, hp2⟩, hx⟩ | ⟨p, ⟨hp, hp2⟩, hx⟩)
      · refine ⟨p, ⟨⟨p, hp, ?_⟩, hp2⟩, hx⟩
        have hpj : p.2 ≠ j := by rw [hp2]; exact hne
        simp [hpj]
      · exact ⟨(p.1, i), ⟨⟨p, hp, by simp [hp2]⟩, rfl⟩, hx⟩
  · exact Finset.not_mem_erase j _
  · intro k hki hkj hjk
    refine Finset.mem_filter.mpr ⟨Finset.mem_image.mpr ⟨mkEdge j k, hjk, ?_⟩, ?_⟩
    · rw [relabel_mkEdge]
      simp [relabel, hkj, fun e => hkj e]
    · exact mkEdge_ne_diag i k (fun e => hki e.symm)
  · intro k hki hkj hik
    refine Finset.mem_filter.mpr ⟨Finset.mem_image.mpr ⟨mkEdge i k, hik, ?_⟩, ?_⟩
    · rw [relabel_mkEdge]
      simp [relabel, hne, fun e => hkj e]
    · exact mkEdge_ne_diag i k (fun e => hki e.symm)

/-- C4, witness: in the chain 0 - 1 - 2, the milestone (0, 1) exists;
removing it merges cell 1 into cell 0, the former milestone {1, 2}
becomes {0, 2}, and cell 0 now carries the anchors of cells 0 and 1. -/
theorem remove_milestone_merges_cells_witness :
    ∃ D2, remove_milestone sampleDecomposer 0 1 = Except.ok D2
      ∧ (∀ x : ℚ, x ∈ cell_anchor_mapping D2 0 ↔
            x ∈ cell_anchor_mapping sampleDecomposer 0
          ∨ x ∈ cell_anchor_mapping sampleDecomposer 1)
      ∧ 1 ∉ D2.graph.nodes
      ∧ (∀ k : ℕ, k ≠ 0 → k ≠ 1 →
            mkEdge 1 k ∈ sampleDecomposer.graph.edges → mkEdge 0 k ∈ D2.graph.edges)
      ∧ (∀ k : ℕ, k ≠ 0 → k ≠ 1 →
            mkEdge 0 k ∈ sampleDecomposer.graph.edges → mkEdge 0 k ∈ D2.graph.edges) :=
  remove_milestone_merges_cells sampleDecomposer 0 1 (by decide) (by decide)

/- MarkovianMilestoningEstimator accumulator state, milestoning.py lines
   55-108.  The source never initialises self._ix, self._count_matrix,
   self._total_times or self._schedules (the initialisation is absent from
   src); the state is therefore carried abstractly: an index map from
   milestone to state index (the dict self._ix, none meaning the milestone
   is not a key), the count matrix and total-time vector as functions, and
   the retained schedules. -/

structure MarkovianMilestoningEstimator where
  ix : Milestone → Option ℕ
  count_matrix : ℕ × ℕ → ℕ
  total_times : ℕ → ℚ
  schedules : List Schedule

/-- Body of the inner loop of fit_from_schedules, lines 103-107: for a
consecutive pair (a, t), (b, _) of schedule entries, skip when a or b is
not a key of self._ix, else add 1 to count_matrix[ix[a], ix[b]] and t to
total_times[ix[a]]. -/
def processPair (E : MarkovianMilestoningEstimator) (p q : Milestone × ℚ) :
    MarkovianMilestoningEstimator :=
  match E.ix p.1, E.ix q.1 with
  | some ia, some ib =>
    { E with
      count_matrix := Function.update E.count_matrix (ia, ib) (E.count_matrix (ia, ib) + 1),
      total_times := Function.update E.total_times ia (E.total_times ia + p.2) }
  | _, _ => E

/-- One schedule of the outer loop, line 103: the consecutive pairs are
zip(schedule[:-1], schedule[1:]). -/
def fitSchedule (E : MarkovianMilestoningEstimator) (s : Schedule) :
    MarkovianMilestoningEstimator :=
  (s.dropLast.zip s.tail).foldl (fun F pq => processPair F pq.1 pq.2) E

/-- fit_from_schedules, lines 91-108: loop over the schedules, then
self._schedules += schedules. -/
def fit_from_schedules (E : MarkovianMilestoningEstimator) (schedules : List Schedule) :
    MarkovianMilestoningEstimator :=
  { schedules.foldl fitSchedule E with
    schedules := (schedules.foldl fitSchedule E).schedules ++ schedules }

theorem processPair_schedules (E : MarkovianMilestoningEstimator) (p q : Milestone × ℚ) :
    (processPair E p q).schedules = E.schedules := by
  cases hA : E.ix p.1 <;> cases hB : E.ix q.1 <;> simp [processPair, hA, hB]

theorem processPair_set_schedules (E : MarkovianMilestoningEstimator) (l : List Schedule)
    (p q : Milestone × ℚ) :
    processPair { E with schedules := l } p q = { processPair E p q with schedules := l } := by
  obtain ⟨ix, cm, tt, sch⟩ := E
  cases hA : ix p.1 <;> cases hB : ix q.1 <;> simp [processPair, hA, hB]

theorem foldl_processPair_set_schedules (l : List ((Milestone × ℚ) × (Milestone × ℚ)))
    (sch : List Schedule) :
    ∀ E, l.foldl (fun F pq => processPair F pq.1 pq.2) { E with schedules := sch }
      = { l.foldl (fun F pq => processPair F pq.1 pq.2) E with schedules := sch } := by
  induction l with
  | nil => intro E; rfl
  | cons x xs ih =>
    intro E
    rw [List.foldl_cons, List.foldl_cons, processPair_set_schedules, ih]

theorem fitSchedule_set_schedules (E : MarkovianMilestoningEstimator) (sch : List Schedule)
    (s : Schedule) :
    fitSchedule { E with schedules := sch } s = { fitSchedule E s with schedules := sch } :=
  foldl_processPair_set_schedules _ sch E

theorem foldl_fitSchedule_set_schedules (ss : List Schedule) (sch : List Schedule) :
    ∀ E, ss.foldl fitSchedule { E with schedules := sch }
      = { ss.foldl fitSchedule E with schedules := sch } := by
  induction ss with
  | nil => intro E; rfl
  | cons s rest ih =>
    intro E
    rw [List.foldl_cons, List.foldl_cons, fitSchedule_set_schedules, ih]

theorem fitSchedule_schedules (E : MarkovianMilestoningEstimator) (s : Schedule) :
    (fitSchedule E s).schedules = E.schedules := by
  have h := fitSchedule_set_schedules E E.schedules s
  simpa using congrArg MarkovianMilestoningEstimator.schedules h

theorem foldl_fitSchedule_schedules (ss : List Schedule) :
    ∀ E, (ss.foldl fitSchedule E).schedules = E.schedules := by
  induction ss with
  | nil => intro E; rfl
  | cons s rest ih =>
    intro E
    rw [List.foldl_cons, ih, fitSchedule_schedules]

/-- C5.  fit_from_schedules accumulation semantics: a consecutive pair
whose milestones a and b are both keys of the index adds 1 to the (ix[a],
ix[b]) count and the lifetime of a to the total time of ix[a]; a pair with
an unrecognised milestone on either side leaves the state untouched (the
continue at line 105, no exception); and the ingested schedules are
appended to the retained ones.  Every consecutive pair of every schedule
is processed this way, fit_from_schedules being the fold of processPair
over zip(schedule[:-1], schedule[1:]) for each schedule. -/
theorem fit_from_schedules_pair_accumulation (E : MarkovianMilestoningEstimator)
    (a b : Milestone) (t u : ℚ) :
    (∀ ia ib, E.ix a = some ia → E.ix b = some ib →
        processPair E (a, t) (b, u)
          = { E with
              count_matrix :=
                Function.update E.count_matrix (ia, ib) (E.count_matrix (ia, ib) + 1),
              total_times := Function.update E.total_times ia (E.total_times ia + t) })
  ∧ (E.ix a = none ∨ E.ix b = none → processPair E (a, t) (b, u) = E)
  ∧ (∀ ss : List Schedule, (fit_from_schedules E ss).schedules = E.schedules ++ ss) := by
  refine ⟨?_, ?_, ?_⟩
  · intro ia ib h1 h2
    simp [processPair, h1, h2]
  · rintro (h | h)
    · simp [processPair, h]
    · cases hA : E.ix a <;> simp [processPair, h, hA]
  · intro ss
    simp [fit_from_schedules, foldl_fitSchedule_schedules]

def mA : Milestone := {some 0, some 1}

def mB : Milestone := {some 1, some 2}

def sampleEstimator : MarkovianMilestoningEstimator :=
  { ix := fun m => if m = mA then some 0 else if m = mB then some 1 else none,
    count_matrix := fun _ => 0,
    total_times := fun _ => 0,
    schedules := [] }

/-- C5, witness: on a concrete estimator indexing the milestones {0,1} and
{1,2}, a recognised pair updates count and total time, a pair whose first
milestone holds the sentinel is skipped, and a fitted schedule is
retained. -/
theorem fit_from_schedules_pair_accumulation_witness :
    processPair sampleEstimator (mA, 3) (mB, 0)
      = { sampleEstimator with
          count_matrix :=
            Function.update sampleEstimator.count_matrix (0, 1)
              (sampleEstimator.count_matrix (0, 1) + 1),
          total_times :=
            Function.update sampleEstimator.total_times 0
              (sampleEstimator.total_times 0 + 3) }
  ∧ processPair sampleEstimator ({none, some 0}, 2) (mA, 0) = sampleEstimator
  ∧ (fit_from_schedules sampleEstimator [[(mA, 3), (mB, 0)]]).schedules
      = sampleEstimator.schedules ++ [[(mA, 3), (mB, 0)]] :=
  ⟨(fit_from_schedules_pair_accumulation sampleEstimator mA mB 3 0).1 0 1
      (by decide) (by decide),
   (fit_from_schedules_pair_accumulation sampleEstimator {none, some 0} mA 2 0).2.1
      (Or.inl (by decide)),
   (fit_from_schedules_pair_accumulation sampleEstimator mA mB 3 0).2.2
      [[(mA, 3), (mB, 0)]]⟩

/-- C6.  Fitting two batches of schedules one after the other produces
exactly the count matrix and the total-time vector produced by fitting
their concatenation in one call: the accumulation at lines 102-108 is
associative over batches. -/
theorem fit_from_schedules_batches (E : MarkovianMilestoningEstimator)
    (ss1 ss2 : List Schedule) :
    (fit_from_schedules (fit_from_schedules E ss1) ss2).count_matrix
      = (fit_from_schedules E (ss1 ++ ss2)).count_matrix
  ∧ (fit_from_schedules (fit_from_schedules E ss1) ss2).total_times
      = (fit_from_schedules E (ss1 ++ ss2)).total_times := by
  have key : fit_from_schedules (fit_from_schedules E ss1) ss2
      = fit_from_schedules E (ss1 ++ ss2) := by
    simp only [fit_from_schedules, List.foldl_append]
    rw [foldl_fitSchedule_set_schedules]
    simp [foldl_fitSchedule_schedules, List.append_assoc]
  exact ⟨congrArg MarkovianMilestoningEstimator.count_matrix key,
         congrArg MarkovianMilestoningEstimator.total_times key⟩

/- MarkovianMilestoningModel, milestoning.py lines 8-37. -/

structure MarkovianMilestoningModel where
  rate_matrix : List (List ℚ)
  milestones : List Milestone

/-- Modelled from the spec: n_states of the base class
bkit.markov.ContinuousTimeMarkovModel (a module absent from src) is the
dimension M of the (M, M) rate matrix, per spec sections 3 and 4.6. -/
def n_states (rate_matrix : List (List ℚ)) : ℕ := rate_matrix.length

/-- The milestones setter, lines 32-37: raise ValueError when the number
of milestones differs from n_states, else store the value unchanged. -/
def milestones_setter (ns : ℕ) (value : List Milestone) : Except String (List Milestone) :=
  if value.length ≠ ns then
    Except.error "number of milestones must match dimension of rate matrix"
  else Except.ok value

/-- The constructor, lines 11-25: super().__init__(rate_matrix), then
assignment through the milestones setter. -/
def MarkovianMilestoningModel_init (Q : List (List ℚ)) (ms : List Milestone) :
    Except String MarkovianMilestoningModel :=
  (milestones_setter (n_states Q) ms).map
    (fun v => { rate_matrix := Q, milestones := v })

/-- C9.  A milestone list whose length differs from the rate-matrix
dimension is rejected with ValueError, both at construction and through
the setter; and whenever construction does succeed the stored milestone
list is exactly the given value, never truncated or padded. -/
theorem milestones_length_validated (Q : List (List ℚ)) (ms : List Milestone)
    (h : ms.length ≠ n_states Q) :
    MarkovianMilestoningModel_init Q ms
      = Except.error "number of milestones must match dimension of rate matrix"
  ∧ milestones_setter (n_states Q) ms
      = Except.error "number of milestones must match dimension of rate matrix"
  ∧ (∀ (Q2 : List (List ℚ)) (v : List Milestone) (m : MarkovianMilestoningModel),
      MarkovianMilestoningModel_init Q2 v = Except.ok m → m.milestones = v) := by
  refine ⟨?_, ?_, ?_⟩
  · simp [MarkovianMilestoningModel_init, milestones_setter, h, Except.map]
  · simp [milestones_setter, h]
  · intro Q2 v m hm
    by_cases hv : v.length ≠ n_states Q2
    · simp [MarkovianMilestoningModel_init, milestones_setter, hv, Except.map] at hm
    · simp [MarkovianMilestoningModel_init, milestones_setter, hv, Except.map] at hm
      rw [← hm]

/-- C9, witness: a 1 x 1 rate matrix with an empty milestone list is
rejected, and a succeeding construction stores its list unchanged. -/
theorem milestones_length_validated_witness :
    MarkovianMilestoningModel_init [[0]] []
      = Except.error "number of milestones must match dimension of rate matrix"
  ∧ milestones_setter (n_states [[0]]) []
      = Except.error "number of milestones must match dimension of rate matrix"
  ∧ (∀ (Q2 : List (List ℚ)) (v : List Milestone) (m : MarkovianMilestoningModel),
      MarkovianMilestoningModel_init Q2 v = Except.ok m → m.milestones = v) :=
  milestones_length_validated [[0]] [] (by decide)

/- TrajectoryDecomposer.__init__, milestoning.py lines 114-159, for the
   branch exercised by a single (N, 1) anchor array. -/

/-- Python truthiness of the boxsize argument as tested by `if boxsize:`
at line 133: None and the scalar 0 are falsy, any other scalar is truthy.
Only scalar boxsize values are modelled here. -/
def truthy (b : Option ℚ) : Bool :=
  match b with
  | none => false
  | some x => decide (x ≠ 0)

/-- TrajectoryDecomposer.__init__, lines 114-159, for a single
one-dimensional anchor array: the boxsize check (lines 133-134); the
identity anchor-to-cell dict (line 137); the chain graph on consecutive
anchors (line 151, the n_dim equal 1 branch); the quotient by the
anchor-to-cell partition with relabelling (lines 152-153), which for this
identity partition returns the chain itself, its nodes the anchor indices
occurring in chain edges; storage of the cutoff (line 157); and the
finite-cutoff handling (lines 158-159), where the constructor calls
append on the dict self._parent_cell and so raises AttributeError.  The
cutoff argument none embeds np.inf, the default; some c embeds a finite
cutoff.  The list-of-arrays branch (lines 139-141) and the
n_dim-greater-than-1 branch (lines 146-149, scipy Delaunay) are outside
this embedding, but the boxsize and cutoff statements are shared by every
branch. -/
def TrajectoryDecomposer_init (anchors : List ℚ) (cutoff : Option ℚ) (boxsize : Option ℚ) :
    Except String TrajectoryDecomposer :=
  if truthy boxsize then
    Except.error "NotImplementedError: patience"
  else
    let n := anchors.length
    let parent := (List.range n).map (fun k => (k, k))
    let chain := (List.range (n - 1)).map (fun k => (k, k + 1))
    let nodes := (chain.map Prod.fst ++ chain.map Prod.snd).toFinset
    let edges := (chain.map (fun e => mkEdge e.1 e.2)).toFinset
    match cutoff with
    | some _ => Except.error "AttributeError: dict object has no attribute append"
    | none =>
      Except.ok { graph := { nodes := nodes, edges := edges },
                  parent_cell := parent, data := anchors, cutoff := none }

/-- C7, counterexample: boxsize = 0 is a value other than None, yet it is
falsy, so the check `if boxsize:` at line 133 does not fire and
construction succeeds, silently ignoring the periodic-boundary
request. -/
theorem boxsize_zero_silently_ignored :
    (TrajectoryDecomposer_init [0, 1] none (some 0)).isOk = true := by
  rfl

/-- C7, amended: construction raises NotImplementedError immediately for
every truthy boxsize value, that is every nonzero scalar, whatever the
anchors and cutoff; the falsy scalar 0 is the one non-None value that
slips through. -/
theorem boxsize_truthy_raises (anchors : List ℚ) (cutoff : Option ℚ) (b : ℚ)
    (hb : b ≠ 0) :
    TrajectoryDecomposer_init anchors cutoff (some b)
      = Except.error "NotImplementedError: patience" := by
  simp [TrajectoryDecomposer_init, truthy, hb]

/-- C7, witness for the amended claim at boxsize = 1. -/
theorem boxsize_truthy_raises_witness :
    TrajectoryDecomposer_init [0] none (some 1)
      = Except.error "NotImplementedError: patience" :=
  boxsize_truthy_raises [0] none 1 one_ne_zero

/-- C10.  A decomposer with a finite cutoff can never be obtained:
whatever the anchors and boxsize, construction with cutoff = some c
raises before returning — either the boxsize NotImplementedError at line
134, or the AttributeError at line 159, where the constructor calls
append on the dict self._parent_cell. -/
theorem finite_cutoff_never_constructs (anchors : List ℚ) (boxsize : Option ℚ) (c : ℚ) :
    (TrajectoryDecomposer_init anchors (some c) boxsize).isOk = false := by
  by_cases hb : truthy boxsize <;>
    simp [TrajectoryDecomposer_init, hb, Except.isOk, Except.toBool]
